import Mathlib

/-!
# Verification of the pdf-extractor core (src/core)

A shallow embedding of the text-cleaning and chunk-building pipeline of the
pdf-extractor repository (src/core/output.py, src/core/core.py), together
with theorems settling the frozen claims about it.

Modelling conventions:
* Python `str` values that the pipeline inspects character by character are
  embedded as `List Char` (abbreviated `Str`); `str.split()` and
  `" ".join(...)` are embedded as `pySplit` and `joinSpace` below.
* Python `float` is embedded as `ℚ` (all arithmetic the claims touch is exact
  on the inputs considered). `int` is embedded as `ℤ`.
* `str.isalpha()` tests Unicode alphabeticity per character; the per-character
  predicate is injected as a parameter `alpha : Char → Bool`.
* `wordfreq.zipf_frequency` is an external library; it is injected as a scoring
  function `freq : Str → ℚ`, exactly as the spec treats it.
* Python methods that may raise are embedded with an `Except` result; a body
  with no `raise` statement yields `.ok` on every path.
-/

namespace PdfExtractor

/-- Python string embedded as a list of characters. -/
abbrev Str := List Char

/-- ASCII whitespace as recognised by Python's `str.split()` / `str.isspace()`:
space, tab, LF, CR, vertical tab, form feed.  (Non-ASCII Unicode whitespace is
outside the character set this development models.) -/
def pyIsSpace (c : Char) : Bool :=
  c = ' ' || c = '\t' || c = '\n' || c = '\r' || c = '\x0b' || c = '\x0c'

/-- Helper for `pySplit`: walks the string accumulating the current word in
reverse in `acc`, emitting it whenever whitespace (or the end) is reached. -/
def pySplitAux : Str → Str → List Str
  | [], acc => if acc.isEmpty then [] else [acc.reverse]
  | c :: cs, acc =>
    if pyIsSpace c then
      if acc.isEmpty then pySplitAux cs []
      else acc.reverse :: pySplitAux cs []
    else pySplitAux cs (c :: acc)

/-- Embedding of Python `str.split()` (no arguments): split on runs of
whitespace, discarding empty fragments. -/
def pySplit (s : Str) : List Str :=
  pySplitAux s []

/-- Embedding of Python `" ".join(fragments)`. -/
def joinSpace : List Str → Str
  | [] => []
  | [w] => w
  | w :: ws => w ++ ' ' :: joinSpace ws

/-- Embedding of Python `str.isalpha()`: true iff the string is nonempty and
every character is alphabetic (per the injected predicate `alpha`). -/
def pyIsAlpha (alpha : Char → Bool) (w : Str) : Bool :=
  !w.isEmpty && w.all alpha

/- ### Basic facts about `pySplit` and `joinSpace` -/

theorem pySplitAux_words_ne_nil (s : Str) :
    ∀ (acc : Str), ∀ w ∈ pySplitAux s acc, w ≠ [] := by
  induction s with
  | nil =>
    intro acc w hw
    simp only [pySplitAux] at hw
    split at hw
    · simp at hw
    · rename_i hacc
      simp only [List.mem_singleton] at hw
      subst hw
      simpa [List.isEmpty_iff] using hacc
  | cons c cs ih =>
    intro acc w hw
    simp only [pySplitAux] at hw
    split at hw
    · split at hw
      · exact ih [] w hw
      · rename_i hacc
        rcases List.mem_cons.mp hw with h | h
        · subst h
          simpa [List.isEmpty_iff] using hacc
        · exact ih [] w h
    · exact ih (c :: acc) w hw

theorem pySplit_words_ne_nil (s : Str) : ∀ w ∈ pySplit s, w ≠ [] :=
  pySplitAux_words_ne_nil s []

theorem pySplitAux_words_no_space (s : Str) :
    ∀ (acc : Str), (∀ c ∈ acc, pyIsSpace c = false) →
      ∀ w ∈ pySplitAux s acc, ∀ c ∈ w, pyIsSpace c = false := by
  induction s with
  | nil =>
    intro acc hacc w hw c hc
    simp only [pySplitAux] at hw
    split at hw
    · simp at hw
    · simp only [List.mem_singleton] at hw
      subst hw
      exact hacc c (List.mem_reverse.mp hc)
  | cons a cs ih =>
    intro acc hacc w hw c hc
    simp only [pySplitAux] at hw
    split at hw
    · rename_i hsp
      split at hw
      · exact ih [] (by simp) w hw c hc
      · rcases List.mem_cons.mp hw with h | h
        · subst h
          exact hacc c (List.mem_reverse.mp hc)
        · exact ih [] (by simp) w h c hc
    · rename_i hsp
      refine ih (a :: acc) ?_ w hw c hc
      intro d hd
      rcases List.mem_cons.mp hd with h | h
      · subst h; exact Bool.eq_false_iff.mpr hsp
      · exact hacc d h

theorem pySplit_words_no_space (s : Str) :
    ∀ w ∈ pySplit s, ∀ c ∈ w, pyIsSpace c = false := by
  intro w hw c hc
  exact pySplitAux_words_no_space s [] (by simp) w hw c hc

/-- A list of words is *well formed* when every word is nonempty and contains
no whitespace character — exactly what `pySplit` produces. -/
def WordsOK (ws : List Str) : Prop :=
  ∀ w ∈ ws, w ≠ [] ∧ ∀ c ∈ w, pyIsSpace c = false

theorem pySplit_wordsOK (s : Str) : WordsOK (pySplit s) :=
  fun w hw => ⟨pySplit_words_ne_nil s w hw, pySplit_words_no_space s w hw⟩

theorem wordsOK_filter (ws : List Str) (p : Str → Bool) (h : WordsOK ws) :
    WordsOK (ws.filter p) :=
  fun w hw => h w (List.mem_of_mem_filter hw)

/-- Scanning a whitespace-free word leaves `pySplitAux` accumulating it. -/
theorem pySplitAux_append_word (w : Str) (hw : ∀ c ∈ w, pyIsSpace c = false) :
    ∀ (rest acc : Str), pySplitAux (w ++ rest) acc =
      pySplitAux rest (w.reverse ++ acc) := by
  induction w with
  | nil => intro rest acc; simp
  | cons c cs ih =>
    intro rest acc
    have hc : pyIsSpace c = false := hw c (List.mem_cons_self c cs)
    have hcs : ∀ d ∈ cs, pyIsSpace d = false :=
      fun d hd => hw d (List.mem_cons_of_mem c hd)
    simp only [List.cons_append, pySplitAux, hc, Bool.false_eq_true, if_false]
    rw [show cs.append rest = cs ++ rest from rfl, ih hcs rest (c :: acc)]
    simp

/-- Splitting a single-space join of well-formed words recovers the words:
`pySplit` is a left inverse of `joinSpace` on well-formed word lists. -/
theorem pySplit_joinSpace (ws : List Str) (h : WordsOK ws) :
    pySplit (joinSpace ws) = ws := by
  induction ws with
  | nil => simp [joinSpace, pySplit, pySplitAux]
  | cons w ws ih =>
    obtain ⟨hne, hns⟩ := h w (List.mem_cons_self w ws)
    have hrev : ¬ w.reverse.isEmpty := by
      simp [List.isEmpty_iff, hne]
    cases ws with
    | nil =>
      simp only [joinSpace, pySplit]
      rw [show w = w ++ [] by simp, pySplitAux_append_word w hns [] []]
      simp [pySplitAux, hrev]
    | cons w' ws' =>
      have htail : WordsOK (w' :: ws') :=
        fun u hu => h u (List.mem_cons_of_mem w hu)
      simp only [joinSpace, pySplit]
      rw [pySplitAux_append_word w hns (' ' :: joinSpace (w' :: ws')) []]
      have hsp : pyIsSpace ' ' = true := by decide
      simp only [pySplitAux, hsp, if_true, List.append_nil, hrev,
        Bool.false_eq_true, if_false, List.reverse_reverse]
      have := ih htail
      simp only [pySplit] at this
      rw [this]

/- ### Data model (src/core/output.py) -/

/-- Embedding of `Coordinates` (src/core/output.py). -/
structure Coordinates where
  x : ℚ
  y : ℚ
deriving DecidableEq

/-- Embedding of `BoundingBox` (src/core/output.py). -/
structure BoundingBox where
  bottom_left : Coordinates
  top_right : Coordinates
deriving DecidableEq

def BoundingBox.px_left (b : BoundingBox) : ℚ := b.bottom_left.x

def BoundingBox.px_bottom (b : BoundingBox) : ℚ := b.bottom_left.y

def BoundingBox.width (b : BoundingBox) : ℚ := b.top_right.x - b.bottom_left.x

def BoundingBox.height (b : BoundingBox) : ℚ := b.top_right.y - b.bottom_left.y

/-- Embedding of `TextExtractionSettings` (src/core/output.py).  Field names
follow the source; the spec calls `filter_non_english_words`
"filter_by_dictionary_frequency", `min_word_frequency`
"min_dictionary_frequency", and `remove_non_alpha` "require_alphabetic". -/
structure TextExtractionSettings where
  filter_non_english_words : Bool
  min_word_length : ℤ
  min_word_frequency : ℚ
  remove_non_alpha : Bool
deriving DecidableEq

/-- Embedding of `SpanData` (src/core/output.py). -/
structure SpanData where
  bounding_box : BoundingBox
  text : Str
deriving DecidableEq

/-- Embedding of `SpanData.clean_text` (src/core/output.py lines 53-66):
iterate over `self.text.split()`, `continue` past a word when a filter
rejects it, append it otherwise, and return `" ".join(cleaned)`.  The loop
with `continue` is embedded as a left fold over the split words whose
accumulator is the `cleaned` list.  `alpha` injects `str.isalpha`'s
per-character test and `freq` injects `wordfreq.zipf_frequency(word, "en")`. -/
def SpanData.clean_text (alpha : Char → Bool) (freq : Str → ℚ)
    (span : SpanData) (settings : TextExtractionSettings) : Str :=
  let cleaned := (pySplit span.text).foldl
    (fun acc word =>
      if settings.remove_non_alpha ∧ ¬ pyIsAlpha alpha word then acc
      else if (word.length : ℤ) < settings.min_word_length then acc
      else if settings.filter_non_english_words ∧
          freq word < settings.min_word_frequency then acc
      else acc ++ [word])
    []
  joinSpace cleaned

/-- Embedding of `LineData` (src/core/output.py).  The method
`LineData.clean_spans` is commented out in the source (lines 104-125) and has
no embedding; the derived properties below are the live ones. -/
structure LineData where
  bounding_box : BoundingBox
  spans : List SpanData
deriving DecidableEq

/-- The list of span heights of a line, as read by `height_variation` and
`most_common_span_height`. -/
def LineData.spanHeights (line : LineData) : List ℚ :=
  line.spans.map (fun s => s.bounding_box.height)

/-- Mean of a list of rationals: embedding of `statistics.mean`. -/
def listMean (l : List ℚ) : ℚ := l.sum / l.length

/-- Embedding of the square of `statistics.stdev` (the *sample* standard
deviation): `Σ (x - mean)² / (n - 1)`. -/
def sampleVar (l : List ℚ) : ℚ :=
  (l.map (fun x => (x - listMean l) ^ 2)).sum / ((l.length : ℚ) - 1)

/-- Embedding of the square of the *population* standard deviation
(`statistics.pstdev`): `Σ (x - mean)² / n`. -/
def popVar (l : List ℚ) : ℚ :=
  (l.map (fun x => (x - listMean l) ^ 2)).sum / (l.length : ℚ)

/-- Embedding of the property `LineData.height_variation`
(src/core/output.py lines 80-89) *up to squaring*: the source returns the
float `statistics.stdev(heights) / statistics.mean(heights)` (0.0 when there
are fewer than two heights or the mean is 0); the square root has no exact
rational form, so this development works with the square of that value
throughout, which determines the value itself on the nonnegative ranges the
claims compare (the source value is `Real.sqrt` of this quantity whenever the
mean is nonnegative). -/
def LineData.height_variation_sq (line : LineData) : ℚ :=
  let heights := line.spanHeights
  if heights.length = 0 ∨ heights.length = 1 then 0
  else
    let mean := listMean heights
    let stdSq := sampleVar heights
    if mean = 0 then 0 else stdSq / mean ^ 2

/-- Embedding of `BlockData` (src/core/output.py).  `index` is the
upstream-assigned block number. -/
structure BlockData where
  bounding_box : BoundingBox
  index : ℤ
  lines : List LineData
deriving DecidableEq

/-- Embedding of `PageData` (src/core/output.py). -/
structure PageData where
  height : ℚ
  width : ℚ
  page_number : ℤ
  blocks : List BlockData
deriving DecidableEq

/-- Embedding of `TextChunk` (src/core/output.py). -/
structure TextChunk where
  page_number : ℤ
  text : Str
  px_left : ℚ
  px_bottom : ℚ
  width : ℚ
  height : ℚ
deriving DecidableEq

/-- Embedding of `TextChunk.from_span_data` (src/core/output.py lines
172-187): text is the cleaned span text when settings are given, the raw span
text otherwise; the box measures come from the span's own box. -/
def TextChunk.from_span_data (alpha : Char → Bool) (freq : Str → ℚ)
    (span_data : SpanData) (page_number : ℤ)
    (settings : Option TextExtractionSettings) : TextChunk :=
  { page_number := page_number
    text := match settings with
      | some s => span_data.clean_text alpha freq s
      | none => span_data.text
    px_left := span_data.bounding_box.px_left
    px_bottom := span_data.bounding_box.px_bottom
    width := span_data.bounding_box.width
    height := span_data.bounding_box.height }

/-- Embedding of `TextChunk.from_line_data` (src/core/output.py lines
188-209): text is `" ".join` over *all* spans' (cleaned or raw) texts — the
`clean_spans` call is commented out in the source, so no span is skipped and
empty cleaned texts participate in the join; the box measures come from the
line's own box. -/
def TextChunk.from_line_data (alpha : Char → Bool) (freq : Str → ℚ)
    (line_data : LineData) (page_number : ℤ)
    (settings : Option TextExtractionSettings) : TextChunk :=
  { page_number := page_number
    text := joinSpace (line_data.spans.map (fun span =>
      match settings with
      | some s => span.clean_text alpha freq s
      | none => span.text))
    px_left := line_data.bounding_box.px_left
    px_bottom := line_data.bounding_box.px_bottom
    width := line_data.bounding_box.width
    height := line_data.bounding_box.height }

/-- Embedding of `TextChunk.from_block_data` (src/core/output.py lines
210-234): per line, the (cleaned or raw) span texts that are non-empty are
space-joined; the per-line strings (kept even when empty) are then
space-joined; the box measures come from the block's own box. -/
def TextChunk.from_block_data (alpha : Char → Bool) (freq : Str → ℚ)
    (block_data : BlockData) (page_number : ℤ)
    (settings : Option TextExtractionSettings) : TextChunk :=
  { page_number := page_number
    text := joinSpace (block_data.lines.map (fun line =>
      joinSpace ((line.spans.map (fun span =>
        match settings with
        | some s => span.clean_text alpha freq s
        | none => span.text)).filter (fun t => !t.isEmpty))))
    px_left := block_data.bounding_box.px_left
    px_bottom := block_data.bounding_box.px_bottom
    width := block_data.bounding_box.width
    height := block_data.bounding_box.height }

/- ### Chunk building and extraction (src/core/core.py) -/

/-- Error alphabet for stating the spec's error-handling claims.  The spec
names an `InvalidGranularityError`; the source defines no such exception
class, so no embedded code path ever produces this value. -/
inductive ExtractError where
  | invalidGranularity : String → ExtractError
deriving DecidableEq

/-- Embedding of `Extractor.page_data_to_text_chunks` (src/core/core.py lines
49-78).  The method branches on the string `by` (here `by_`, as `by` is
reserved) against `"spans"`, `"lines"` and `"blocks"`, appending one chunk
per span / line / block in page, block, line, span order; every
`TextChunk.from_*` call passes no settings (the Python default `None`), so
the raw texts flow through.  No branch raises and a `by` value matching no
branch simply leaves the accumulator empty, so every path returns `.ok`. -/
def page_data_to_text_chunks (alpha : Char → Bool) (freq : Str → ℚ)
    (pdf_page_data : List PageData) (by_ : String) :
    Except ExtractError (List TextChunk) :=
  .ok (pdf_page_data.flatMap (fun page =>
    if by_ = "spans" then
      page.blocks.flatMap (fun block =>
        block.lines.flatMap (fun line =>
          line.spans.map (fun span =>
            TextChunk.from_span_data alpha freq span page.page_number none)))
    else if by_ = "lines" then
      page.blocks.flatMap (fun block =>
        block.lines.map (fun line =>
          TextChunk.from_line_data alpha freq line page.page_number none))
    else if by_ = "blocks" then
      page.blocks.map (fun block =>
        TextChunk.from_block_data alpha freq block page.page_number none)
    else []))

/-- Embedding of `Extractor.extract_pdf` (src/core/core.py lines 28-47).  The
body downloads the document and parses every page (requests + pymupdf +
`PageData.from_pymupdf_textpage_json`); that whole upstream computation is
injected as `fetch`.  Interaction with the upstream is made observable by
threading a log of the urls it has been invoked on: the method consults no
cache and stores no state, so each call performs the fetch and appends
exactly one entry to the log. -/
def extract_pdf (fetch : String → List PageData) (pdf_url : String)
    (upstream_log : List String) : List PageData × List String :=
  (fetch pdf_url, upstream_log ++ [pdf_url])

/- ### Characterisation of `clean_text` -/

/-- The keep-predicate of `SpanData.clean_text`'s loop: a word survives iff
none of the three `continue` conditions fires. -/
def keepWord (alpha : Char → Bool) (freq : Str → ℚ)
    (settings : TextExtractionSettings) (word : Str) : Bool :=
  !(settings.remove_non_alpha && !pyIsAlpha alpha word) &&
  !(decide ((word.length : ℤ) < settings.min_word_length)) &&
  !(settings.filter_non_english_words &&
    decide (freq word < settings.min_word_frequency))

/-- `clean_text` as a pure function of the text: split, filter, rejoin. -/
def cleanStr (alpha : Char → Bool) (freq : Str → ℚ)
    (settings : TextExtractionSettings) (t : Str) : Str :=
  joinSpace ((pySplit t).filter (keepWord alpha freq settings))

theorem foldl_append_filter (p : Str → Bool) :
    ∀ (l acc : List Str),
      l.foldl (fun a w => if p w then a ++ [w] else a) acc =
        acc ++ l.filter p := by
  intro l
  induction l with
  | nil => intro acc; simp
  | cons w l ih =>
    intro acc
    by_cases h : p w
    · simp [List.foldl_cons, h, ih]
    · simp [List.foldl_cons, h, ih]

theorem foldl_ext (f g : List Str → Str → List Str)
    (h : ∀ a w, f a w = g a w) :
    ∀ (l : List Str) (acc : List Str), l.foldl f acc = l.foldl g acc := by
  intro l
  induction l with
  | nil => intro acc; rfl
  | cons w l ih => intro acc; rw [List.foldl_cons, List.foldl_cons, h, ih]

/-- The loop body of `clean_text` agrees with a single filtering pass by
`keepWord`. -/
theorem clean_text_eq_cleanStr (alpha : Char → Bool) (freq : Str → ℚ)
    (span : SpanData) (settings : TextExtractionSettings) :
    span.clean_text alpha freq settings =
      cleanStr alpha freq settings span.text := by
  have hbody : ∀ (acc : List Str) (word : Str),
      (if settings.remove_non_alpha ∧ ¬ pyIsAlpha alpha word then acc
       else if (word.length : ℤ) < settings.min_word_length then acc
       else if settings.filter_non_english_words ∧
           freq word < settings.min_word_frequency then acc
       else acc ++ [word]) =
      (if keepWord alpha freq settings word then acc ++ [word] else acc) := by
    intro acc word
    cases hra : settings.remove_non_alpha <;>
      cases hal : pyIsAlpha alpha word <;>
      by_cases h2 : (word.length : ℤ) < settings.min_word_length <;>
      cases hfe : settings.filter_non_english_words <;>
      by_cases h3 : freq word < settings.min_word_frequency <;>
      simp [keepWord, hra, hal, h2, hfe, h3]
  simp only [SpanData.clean_text, cleanStr]
  rw [foldl_ext _ _ hbody, foldl_append_filter, List.nil_append]

/-- The cleaned text of a span depends only on its raw text, never on its
bounding box. -/
theorem clean_text_eq_of_text_eq (alpha : Char → Bool) (freq : Str → ℚ)
    (settings : TextExtractionSettings) (s1 s2 : SpanData)
    (h : s1.text = s2.text) :
    s1.clean_text alpha freq settings = s2.clean_text alpha freq settings := by
  rw [clean_text_eq_cleanStr, clean_text_eq_cleanStr, h]

/-- `cleanStr` is idempotent: its output splits back into exactly the kept
words, and filtering the kept words again keeps them all. -/
theorem cleanStr_idem (alpha : Char → Bool) (freq : Str → ℚ)
    (settings : TextExtractionSettings) (t : Str) :
    cleanStr alpha freq settings (cleanStr alpha freq settings t) =
      cleanStr alpha freq settings t := by
  unfold cleanStr
  rw [pySplit_joinSpace _
    (wordsOK_filter _ _ (pySplit_wordsOK t)), List.filter_filter]
  simp [Bool.and_self]

/- ### Whitespace hygiene of cleaned text -/

/-- No two adjacent space characters. -/
def noDblSpace : Str → Bool
  | [] => true
  | [_] => true
  | c1 :: c2 :: rest => !(c1 = ' ' && c2 = ' ') && noDblSpace (c2 :: rest)

/-- The character at neither end is whitespace, every whitespace character is
a plain space (so no tab, CR, LF, vertical tab or form feed occurs), and no
two spaces are adjacent. -/
def noBadWs (s : Str) : Bool :=
  s.all (fun c => c = ' ' || !pyIsSpace c) &&
  noDblSpace s &&
  (match s.head? with | some c => !pyIsSpace c | none => true) &&
  (match s.getLast? with | some c => !pyIsSpace c | none => true)

theorem mem_joinSpace (ws : List Str) (c : Char) (h : c ∈ joinSpace ws) :
    c = ' ' ∨ ∃ w ∈ ws, c ∈ w := by
  induction ws with
  | nil => simp [joinSpace] at h
  | cons w ws ih =>
    cases ws with
    | nil =>
      right
      exact ⟨w, List.mem_cons_self w [], h⟩
    | cons w' ws' =>
      simp only [joinSpace] at h
      rcases List.mem_append.mp h with h | h
      · right; exact ⟨w, List.mem_cons_self _ _, h⟩
      · rcases List.mem_cons.mp h with h | h
        · left; exact h
        · rcases ih h with h | ⟨u, hu, hc⟩
          · left; exact h
          · right; exact ⟨u, List.mem_cons_of_mem w hu, hc⟩

theorem joinSpace_cons_ne_nil (w : Str) (ws : List Str) (hw : w ≠ []) :
    ∃ d t, joinSpace (w :: ws) = d :: t ∧ d ∈ w := by
  obtain ⟨d, w', rfl⟩ := List.exists_cons_of_ne_nil hw
  cases ws with
  | nil => exact ⟨d, w', rfl, List.mem_cons_self d w'⟩
  | cons u us =>
    exact ⟨d, w' ++ ' ' :: joinSpace (u :: us), rfl, List.mem_cons_self d w'⟩

theorem noDblSpace_append_word (w : Str)
    (hw : ∀ c ∈ w, pyIsSpace c = false) :
    ∀ (rest : Str), noDblSpace (w ++ rest) = noDblSpace rest := by
  induction w with
  | nil => intro rest; rfl
  | cons a w ih =>
    intro rest
    have ha : pyIsSpace a = false := hw a (List.mem_cons_self a w)
    have ha' : (a = ' ') = False := by
      simp only [eq_iff_iff, iff_false]
      intro h
      subst h
      simp [pyIsSpace] at ha
    have hw' : ∀ c ∈ w, pyIsSpace c = false :=
      fun c hc => hw c (List.mem_cons_of_mem a hc)
    cases w with
    | nil =>
      cases rest with
      | nil => rfl
      | cons b r =>
        simp only [List.nil_append, List.cons_append, noDblSpace, ha',
          decide_False, Bool.false_and, Bool.not_false, Bool.true_and]
    | cons b w' =>
      have := ih hw' rest
      simp only [List.cons_append, noDblSpace, ha', decide_False,
        Bool.false_and, Bool.not_false, Bool.true_and] at this ⊢
      exact this

theorem noDblSpace_joinSpace (ws : List Str) (h : WordsOK ws) :
    noDblSpace (joinSpace ws) = true := by
  induction ws with
  | nil => rfl
  | cons w ws ih =>
    obtain ⟨hne, hns⟩ := h w (List.mem_cons_self w ws)
    have htail : WordsOK ws := fun u hu => h u (List.mem_cons_of_mem w hu)
    cases ws with
    | nil =>
      show noDblSpace w = true
      rw [show w = w ++ [] by simp, noDblSpace_append_word w hns []]
      rfl
    | cons w' ws' =>
      obtain ⟨hne', _⟩ := htail w' (List.mem_cons_self w' ws')
      obtain ⟨d, t, hdt, hd⟩ := joinSpace_cons_ne_nil w' ws' hne'
      have hdns : pyIsSpace d = false :=
        (htail w' (List.mem_cons_self w' ws')).2 d hd
      have hd' : (d = ' ') = False := by
        simp only [eq_iff_iff, iff_false]
        intro h'
        subst h'
        simp [pyIsSpace] at hdns
      simp only [joinSpace, noDblSpace_append_word w hns]
      rw [hdt]
      simp only [noDblSpace, hd', decide_True, decide_False, Bool.true_and,
        Bool.and_false, Bool.not_false, Bool.false_and, Bool.true_and]
      rw [← hdt, ih htail]

theorem getLast?_joinSpace (ws : List Str) (h : WordsOK ws) :
    ∀ c, (joinSpace ws).getLast? = some c → pyIsSpace c = false := by
  induction ws with
  | nil => intro c hc; simp [joinSpace] at hc
  | cons w ws ih =>
    intro c hc
    obtain ⟨hne, hns⟩ := h w (List.mem_cons_self w ws)
    have htail : WordsOK ws := fun u hu => h u (List.mem_cons_of_mem w hu)
    cases ws with
    | nil =>
      refine hns c ?_
      obtain ⟨hh, rfl⟩ := List.mem_getLast?_eq_getLast
        (show c ∈ (joinSpace [w]).getLast? from hc)
      exact List.getLast_mem hh
    | cons w' ws' =>
      obtain ⟨hne', _⟩ := htail w' (List.mem_cons_self w' ws')
      obtain ⟨d, t, hdt, _⟩ := joinSpace_cons_ne_nil w' ws' hne'
      have h1 : joinSpace (w :: w' :: ws') = w ++ ' ' :: joinSpace (w' :: ws') :=
        rfl
      rw [h1, List.getLast?_append_of_ne_nil _ (List.cons_ne_nil _ _), hdt,
        List.getLast?_cons_cons, ← hdt] at hc
      exact ih htail c hc

theorem noBadWs_joinSpace (ws : List Str) (h : WordsOK ws) :
    noBadWs (joinSpace ws) = true := by
  have hall : (joinSpace ws).all (fun c => c = ' ' || !pyIsSpace c) = true := by
    rw [List.all_eq_true]
    intro c hc
    rcases mem_joinSpace ws c hc with rfl | ⟨w, hw, hcw⟩
    · simp
    · have := (h w hw).2 c hcw
      simp [this]
  have hhead : (match (joinSpace ws).head? with
      | some c => !pyIsSpace c | none => true) = true := by
    cases ws with
    | nil => rfl
    | cons w ws' =>
      obtain ⟨hne, hns⟩ := h w (List.mem_cons_self w ws')
      obtain ⟨d, t, hdt, hd⟩ := joinSpace_cons_ne_nil w ws' hne
      rw [hdt]
      simp [hns d hd]
  have hlast : (match (joinSpace ws).getLast? with
      | some c => !pyIsSpace c | none => true) = true := by
    cases hg : (joinSpace ws).getLast? with
    | none => rfl
    | some c => simp [getLast?_joinSpace ws h c hg]
  simp only [noBadWs, hall, noDblSpace_joinSpace ws h, hhead, hlast,
    Bool.and_true, Bool.true_and]

/- ### Spec-side definitions (for refinement comparisons) -/

/-- Modelled from the claim's words (C7): a word is dropped iff
`require_alphabetic`/`remove_non_alpha` is true and the word contains a
non-alphabetic character, or its length is below `min_word_length`, or
dictionary-frequency filtering is enabled and the injected score is below the
minimum frequency. -/
def droppedPerSpec (alpha : Char → Bool) (freq : Str → ℚ)
    (settings : TextExtractionSettings) (word : Str) : Prop :=
  (settings.remove_non_alpha = true ∧ ∃ c ∈ word, alpha c = false) ∨
  ((word.length : ℤ) < settings.min_word_length) ∨
  (settings.filter_non_english_words = true ∧
    freq word < settings.min_word_frequency)

instance (alpha : Char → Bool) (freq : Str → ℚ)
    (settings : TextExtractionSettings) (word : Str) :
    Decidable (droppedPerSpec alpha freq settings word) := by
  unfold droppedPerSpec
  infer_instance

/-- Modelled from the spec's words (C6): the *square* of the coefficient of
variation taken with the population standard deviation — `popVar / mean²`,
with value 0 when there are fewer than two data points or the mean is 0. -/
def cvPopSq (l : List ℚ) : ℚ :=
  if l.length < 2 then 0
  else if listMean l = 0 then 0
  else popVar l / (listMean l) ^ 2

/-- The amended C6 reading: the *square* of the coefficient of variation
taken with the sample (`n - 1`) standard deviation, the statistic
`statistics.stdev` actually computes. -/
def cvSampleSq (l : List ℚ) : ℚ :=
  if l.length < 2 then 0
  else if listMean l = 0 then 0
  else sampleVar l / (listMean l) ^ 2

/-- Total number of spans in a page list, counted in traversal order. -/
def totalSpans (pages : List PageData) : ℕ :=
  (pages.map (fun p =>
    (p.blocks.map (fun b => (b.lines.map (fun l => l.spans.length)).sum)).sum)).sum

/-- Total number of lines in a page list. -/
def totalLines (pages : List PageData) : ℕ :=
  (pages.map (fun p => (p.blocks.map (fun b => b.lines.length)).sum)).sum

/-- Total number of blocks in a page list. -/
def totalBlocks (pages : List PageData) : ℕ :=
  (pages.map (fun p => p.blocks.length)).sum

/- ### Concrete fixtures for counterexamples and witnesses -/

/-- A span of bounding-box height `h` carrying text `t`. -/
def spanH (h : ℚ) (t : Str) : SpanData :=
  { bounding_box := { bottom_left := { x := 0, y := 0 }
                      top_right := { x := 1, y := h } }
    text := t }

/-- A unit box for fixture lines, blocks and pages. -/
def box0 : BoundingBox :=
  { bottom_left := { x := 0, y := 0 }, top_right := { x := 1, y := 10 } }

/-- Concrete alphabeticity predicate for closed fixtures: Lean's own
`Char.isAlpha` (ASCII letters), matching Python's `str.isalpha` on the ASCII
texts the fixtures use. -/
def alpha0 : Char → Bool := fun c => c.isAlpha

/-- Concrete frequency oracle scoring every word 0. -/
def freq0 : Str → ℚ := fun _ => 0

/-- Settings with every filter disabled. -/
def settingsOff : TextExtractionSettings :=
  { filter_non_english_words := false
    min_word_length := 0
    min_word_frequency := 0
    remove_non_alpha := false }

/-- Settings with only the alphabetic filter enabled. -/
def settingsAlpha : TextExtractionSettings :=
  { filter_non_english_words := false
    min_word_length := 0
    min_word_frequency := 0
    remove_non_alpha := true }

/-- A page holding one block with one line with one whitespace-only span. -/
def blankPage : PageData :=
  { height := 100, width := 100, page_number := 1
    blocks := [{ bounding_box := box0, index := 0
                 lines := [{ bounding_box := box0
                             spans := [spanH 10 [' ']] }] }] }

/-- A line whose span heights are `[10, 10, 10, 50]` with texts
`a`, `b`, `c`, `d`. -/
def lineOutlier : LineData :=
  { bounding_box := box0
    spans := [spanH 10 ['a'], spanH 10 ['b'], spanH 10 ['c'],
              spanH 50 ['d']] }

/-- The same texts as `lineOutlier` but uniform span heights. -/
def lineUniform : LineData :=
  { bounding_box := box0
    spans := [spanH 10 ['a'], spanH 10 ['b'], spanH 10 ['c'],
              spanH 10 ['d']] }

/-- A line with spans `"Hello"`, `"!!!"`, `"World"` — the middle span cleans
to the empty string under `settingsAlpha`. -/
def lineGap : LineData :=
  { bounding_box := box0
    spans := [spanH 10 ['H','e','l','l','o'], spanH 10 ['!','!','!'],
              spanH 10 ['W','o','r','l','d']] }

/-- A line with two spans of heights 10 and 20. -/
def lineTwoHeights : LineData :=
  { bounding_box := box0, spans := [spanH 10 ['x'], spanH 20 ['y']] }

/-- A line with three spans of height 10. -/
def lineEqualHeights : LineData :=
  { bounding_box := box0
    spans := [spanH 10 ['x'], spanH 10 ['y'], spanH 10 ['z']] }

/-- A line with span heights `[10, 10, 100]`. -/
def lineBigOutlier : LineData :=
  { bounding_box := box0
    spans := [spanH 10 ['x'], spanH 10 ['y'], spanH 100 ['z']] }

/-- A line with a single span. -/
def lineSingle : LineData :=
  { bounding_box := box0, spans := [spanH 10 ['x']] }

/-- The C4 page: one block, one line, two spans `"Hello"` and `"xqzplok"`. -/
def pageHello : PageData :=
  { height := 100, width := 100, page_number := 1
    blocks := [{ bounding_box := box0, index := 0
                 lines := [{ bounding_box := box0
                             spans := [spanH 10 ['H','e','l','l','o'],
                                       spanH 10 ['x','q','z','p','l','o','k']] }] }] }

/-- A granularity string outside `{"spans", "lines", "blocks"}`. -/
def badGranularity : String := "words"

/-- A concrete url for the cache counterexample. -/
def urlA : String := "https://example.com/doc.pdf"

/-- A concrete upstream oracle returning no pages. -/
def fetch0 : String → List PageData := fun _ => []

theorem decide_exists_not_alpha (alpha : Char → Bool) (w : Str) :
    decide (∃ c ∈ w, alpha c = false) = !w.all alpha := by
  cases hall : w.all alpha with
  | true =>
    simp only [Bool.not_true, decide_eq_false_iff_not]
    rintro ⟨c, hc, hcf⟩
    have h := List.all_eq_true.mp hall c hc
    rw [h] at hcf
    cases hcf
  | false =>
    simp only [Bool.not_false, decide_eq_true_eq]
    by_contra hno
    push_neg at hno
    have : w.all alpha = true := List.all_eq_true.mpr (fun c hc => by
      cases h : alpha c with
      | false => exact absurd h (hno c hc)
      | true => rfl)
    rw [hall] at this
    cases this

/-- On the nonempty words produced by `pySplit`, the code's keep-condition
(`not word.isalpha()` and friends) coincides with the claim's drop-condition
("the word contains a non-alphabetic character" and friends). -/
theorem keepWord_eq_not_dropped (alpha : Char → Bool) (freq : Str → ℚ)
    (settings : TextExtractionSettings) (w : Str) (hw : w ≠ []) :
    keepWord alpha freq settings w =
      !decide (droppedPerSpec alpha freq settings w) := by
  have h1 : w.isEmpty = false := by simp [List.isEmpty_iff, hw]
  simp only [keepWord, droppedPerSpec, pyIsAlpha, h1, Bool.not_false,
    Bool.true_and]
  by_cases hra : settings.remove_non_alpha <;>
    by_cases hall : w.all alpha <;>
    by_cases hlen : (w.length : ℤ) < settings.min_word_length <;>
    by_cases hfe : settings.filter_non_english_words <;>
    by_cases hfr : freq w < settings.min_word_frequency <;>
    simp_all [decide_exists_not_alpha, Bool.and_assoc]

/- ### Claim theorems -/

/-- C7 (confirmed): for every input string and every settings value,
`clean_text` splits the string on whitespace and keeps exactly the words that
pass all enabled filters — a word is dropped iff (`remove_non_alpha` is true
and the word contains a non-alphabetic character) or (its length is below
`min_word_length`) or (dictionary-frequency filtering is enabled and the
injected score is below the minimum frequency) — and returns the surviving
words rejoined with single spaces in original order. -/
theorem C7_clean_text_keeps_passing_words (alpha : Char → Bool)
    (freq : Str → ℚ) (settings : TextExtractionSettings) (span : SpanData) :
    span.clean_text alpha freq settings =
      joinSpace ((pySplit span.text).filter
        (fun w => !decide (droppedPerSpec alpha freq settings w))) := by
  rw [clean_text_eq_cleanStr]
  unfold cleanStr
  refine congrArg joinSpace (List.filter_congr ?_)
  intro w hw
  exact keepWord_eq_not_dropped alpha freq settings w
    (pySplit_words_ne_nil _ w hw)

/-- C9 (confirmed): text cleaning is idempotent — for every input and every
settings value with `remove_non_alpha` (require_alphabetic) true, cleaning
the cleaned text (carried by a span with any bounding box) returns it
unchanged. -/
theorem C9_clean_text_idempotent (alpha : Char → Bool) (freq : Str → ℚ)
    (settings : TextExtractionSettings) (span : SpanData) (box : BoundingBox)
    (h : settings.remove_non_alpha = true) :
    SpanData.clean_text alpha freq
      { bounding_box := box, text := span.clean_text alpha freq settings }
      settings =
    span.clean_text alpha freq settings := by
  rw [clean_text_eq_cleanStr, clean_text_eq_cleanStr]
  exact cleanStr_idem alpha freq settings span.text

/-- Witness for C9 at a concrete span, box and alphabetic-only settings. -/
theorem C9_witness :
    SpanData.clean_text alpha0 freq0
      { bounding_box := box0
        text := SpanData.clean_text alpha0 freq0
          (spanH 10 ['a','b',' ','c','!']) settingsAlpha }
      settingsAlpha =
    SpanData.clean_text alpha0 freq0 (spanH 10 ['a','b',' ','c','!'])
      settingsAlpha :=
  C9_clean_text_idempotent alpha0 freq0 settingsAlpha
    (spanH 10 ['a','b',' ','c','!']) box0 rfl

/-- C10 (confirmed): for every settings value and every input, the output of
`clean_text` is the single-space join of a sublist of the whitespace-split
words of the input; it satisfies `noBadWs` (no tab, CR or LF, no consecutive
spaces, no leading or trailing whitespace); and even with every filter
disabled, cleaning normalizes whitespace and is not the identity: on
`"a\tb"` it returns `"a b"`. -/
theorem C10_clean_text_whitespace_normalized (alpha : Char → Bool)
    (freq : Str → ℚ) (settings : TextExtractionSettings) (span : SpanData) :
    (span.clean_text alpha freq settings =
        joinSpace ((pySplit span.text).filter (keepWord alpha freq settings)) ∧
      List.Sublist ((pySplit span.text).filter (keepWord alpha freq settings))
        (pySplit span.text)) ∧
    noBadWs (span.clean_text alpha freq settings) = true ∧
    SpanData.clean_text alpha0 freq0 (spanH 10 ['a','\t','b']) settingsOff =
      ['a',' ','b'] ∧
    (['a',' ','b'] : Str) ≠ ['a','\t','b'] := by
  refine ⟨⟨clean_text_eq_cleanStr alpha freq span settings,
    List.filter_sublist _⟩, ?_, by decide, by decide⟩
  rw [clean_text_eq_cleanStr]
  exact noBadWs_joinSpace _ (wordsOK_filter _ _ (pySplit_wordsOK span.text))

/-- C6 counterexample: on a line with span heights `[10, 20]` the code's
`height_variation` (squared here: `2/9`, i.e. the sample standard deviation
over the mean, squared) differs from the claimed population coefficient of
variation (squared: `1/9`).  Both underlying values are nonnegative (the mean
is `15 > 0`), so their squares differing refutes the claimed equality. -/
theorem C6_counterexample :
    lineTwoHeights.height_variation_sq = 2 / 9 ∧
    cvPopSq lineTwoHeights.spanHeights = 1 / 9 ∧
    lineTwoHeights.height_variation_sq ≠ cvPopSq lineTwoHeights.spanHeights := by
  refine ⟨?_, ?_, ?_⟩ <;>
    norm_num [LineData.height_variation_sq, LineData.spanHeights, cvPopSq,
      sampleVar, popVar, listMean, lineTwoHeights, spanH, BoundingBox.height]

/-- C6 (amended): `height_variation` is the coefficient of variation of the
span heights computed with the *sample* (`n - 1`) standard deviation — the
statistic `statistics.stdev` returns — not the population one; it is `0.0`
for fewer than two spans or zero mean; heights `[10,10,10]` give `0.0` and
heights `[10,10,100]` give a value whose square exceeds `1/100` (i.e. a value
greater than `0.1`). -/
theorem C6_height_variation_is_sample_cv :
    (∀ line : LineData,
      line.height_variation_sq = cvSampleSq line.spanHeights) ∧
    lineSingle.height_variation_sq = 0 ∧
    lineEqualHeights.height_variation_sq = 0 ∧
    lineBigOutlier.height_variation_sq > 1 / 100 := by
  refine ⟨?_, ?_, ?_, ?_⟩
  · intro line
    by_cases hl : line.spanHeights.length < 2
    · rcases (show line.spanHeights.length = 0 ∨ line.spanHeights.length = 1 by
        omega) with h0 | h1
      · simp [LineData.height_variation_sq, cvSampleSq, hl, h0,
          List.length_eq_zero.mp h0]
      · simp [LineData.height_variation_sq, cvSampleSq, hl, h1]
    · have h1 : ¬ line.spanHeights.length = 1 := by omega
      have hne : ¬ line.spanHeights = [] := by
        intro h
        rw [h] at hl
        exact hl (by norm_num)
      by_cases hm : listMean line.spanHeights = 0 <;>
        simp [LineData.height_variation_sq, cvSampleSq, hl, h1, hne, hm]
  · norm_num [LineData.height_variation_sq, LineData.spanHeights, lineSingle,
      spanH]
  · norm_num [LineData.height_variation_sq, LineData.spanHeights, sampleVar,
      listMean, lineEqualHeights, spanH, BoundingBox.height]
  · norm_num [LineData.height_variation_sq, LineData.spanHeights, sampleVar,
      listMean, lineBigOutlier, spanH, BoundingBox.height]

/-- C5 counterexample: on a line with spans `"Hello"`, `"!!!"`, `"World"`
under alphabetic-only cleaning, the middle span cleans to the empty string
but still contributes a separator, so the line chunk text is
`"Hello  World"` (two spaces) — not the claimed join of only the non-empty
cleaned texts, `"Hello World"` (shown as the third conjunct). -/
theorem C5_counterexample :
    (TextChunk.from_line_data alpha0 freq0 lineGap 1 (some settingsAlpha)).text =
      ['H','e','l','l','o',' ',' ','W','o','r','l','d'] ∧
    (['H','e','l','l','o',' ',' ','W','o','r','l','d'] : Str) ≠
      ['H','e','l','l','o',' ','W','o','r','l','d'] ∧
    joinSpace ((lineGap.spans.map (fun sp =>
        (TextChunk.from_span_data alpha0 freq0 sp 1 (some settingsAlpha)).text)).filter
      (fun t => !t.isEmpty)) =
      ['H','e','l','l','o',' ','W','o','r','l','d'] := by
  refine ⟨by decide, by decide, by decide⟩

/-- C5 (amended): the text of the line-granularity chunk is the single-space
join of the cleaned texts of *all* spans of the line, in reading order —
empty-cleaned spans included, each still contributing a separator;
equivalently, joining all span-granularity chunk texts of the line (empty
ones included) with single spaces equals the line-granularity chunk text, for
any settings. -/
theorem C5_span_chunks_join_to_line_chunk (alpha : Char → Bool)
    (freq : Str → ℚ) (line : LineData) (page_number : ℤ)
    (settings : TextExtractionSettings) :
    joinSpace (line.spans.map (fun sp =>
      (TextChunk.from_span_data alpha freq sp page_number (some settings)).text)) =
    (TextChunk.from_line_data alpha freq line page_number (some settings)).text :=
  rfl

/-- C2 counterexample: a line with span heights `[10, 10, 10, 50]` has
(squared) height variation `1 > 1/100`, yet the height-50 span's text still
contributes to the line chunk: the text is `"a b c d"`, not the claimed
`"a b c"` of the three height-10 spans. -/
theorem C2_counterexample :
    lineOutlier.height_variation_sq > 1 / 100 ∧
    (TextChunk.from_line_data alpha0 freq0 lineOutlier 1 (some settingsOff)).text =
      ['a',' ','b',' ','c',' ','d'] ∧
    (['a',' ','b',' ','c',' ','d'] : Str) ≠ ['a',' ','b',' ','c'] := by
  refine ⟨?_, by decide, by decide⟩
  norm_num [LineData.height_variation_sq, LineData.spanHeights, sampleVar,
    listMean, lineOutlier, spanH, BoundingBox.height]

/-- C2 (amended): no span-outlier rejection happens when a line is collapsed
to a chunk (`clean_spans` is commented out in the source): the chunk text
depends only on the spans' texts — two lines with the same span texts yield
the same chunk text whatever their span heights and height variation — and in
particular the `[10,10,10,50]` line keeps all four spans' texts. -/
theorem C2_no_span_outlier_rejection (alpha : Char → Bool) (freq : Str → ℚ)
    (settings : TextExtractionSettings) (page_number : ℤ)
    (l1 l2 : LineData)
    (h : l1.spans.map SpanData.text = l2.spans.map SpanData.text) :
    (TextChunk.from_line_data alpha freq l1 page_number (some settings)).text =
      (TextChunk.from_line_data alpha freq l2 page_number (some settings)).text ∧
    (TextChunk.from_line_data alpha0 freq0 lineOutlier 1 (some settingsOff)).text =
      ['a',' ','b',' ','c',' ','d'] := by
  refine ⟨?_, by decide⟩
  have key : ∀ l : LineData,
      l.spans.map (fun sp => sp.clean_text alpha freq settings) =
        (l.spans.map SpanData.text).map (cleanStr alpha freq settings) := by
    intro l
    rw [List.map_map]
    exact List.map_congr_left (fun sp _ =>
      clean_text_eq_cleanStr alpha freq sp settings)
  show joinSpace (l1.spans.map (fun sp => sp.clean_text alpha freq settings)) =
    joinSpace (l2.spans.map (fun sp => sp.clean_text alpha freq settings))
  rw [key, key, h]

/-- Witness for C2's amended theorem: the `[10,10,10,50]` line and the
uniform-height line with the same texts produce the same line chunk text. -/
theorem C2_witness :
    ((TextChunk.from_line_data alpha0 freq0 lineOutlier 1 (some settingsOff)).text =
      (TextChunk.from_line_data alpha0 freq0 lineUniform 1 (some settingsOff)).text) ∧
    (TextChunk.from_line_data alpha0 freq0 lineOutlier 1 (some settingsOff)).text =
      ['a',' ','b',' ','c',' ','d'] :=
  C2_no_span_outlier_rejection alpha0 freq0 settingsOff 1 lineOutlier
    lineUniform (by decide)

/-- C1 counterexample: on a page holding one block with one line with one
span whose text is the single space `" "`, `page_data_to_text_chunks` emits,
at spans granularity, a chunk whose text is `" "` — nonempty and consisting
only of whitespace — and at blocks granularity that block contributes one
such blank chunk, not zero chunks. -/
theorem C1_counterexample :
    page_data_to_text_chunks alpha0 freq0 [blankPage] "spans" =
      .ok [{ page_number := 1, text := [' '], px_left := 0, px_bottom := 0,
             width := 1, height := 10 }] ∧
    ([' '] : Str) ≠ [] ∧
    ([' '] : Str).all pyIsSpace = true ∧
    page_data_to_text_chunks alpha0 freq0 [blankPage] "blocks" =
      .ok [{ page_number := 1, text := [' '], px_left := 0, px_bottom := 0,
             width := 1, height := 10 }] := by
  refine ⟨?_, by decide, by decide, ?_⟩ <;>
    simp [page_data_to_text_chunks, TextChunk.from_span_data,
      TextChunk.from_block_data, blankPage, spanH, box0, BoundingBox.px_left,
      BoundingBox.px_bottom, BoundingBox.width, BoundingBox.height, joinSpace]

/-- C1 (amended): `page_data_to_text_chunks` applies no blank-chunk
post-filter (and consumes no settings): at each granularity it emits exactly
one chunk per span / line / block of the input, whatever their texts — so a
block of whitespace-only spans contributes one whitespace-only chunk, not
zero. -/
theorem C1_no_blank_chunk_filter (alpha : Char → Bool) (freq : Str → ℚ)
    (pages : List PageData) :
    (page_data_to_text_chunks alpha freq pages "spans").map List.length =
      .ok (totalSpans pages) ∧
    (page_data_to_text_chunks alpha freq pages "lines").map List.length =
      .ok (totalLines pages) ∧
    (page_data_to_text_chunks alpha freq pages "blocks").map List.length =
      .ok (totalBlocks pages) := by
  refine ⟨?_, ?_, ?_⟩ <;>
    simp [page_data_to_text_chunks, totalSpans, totalLines, totalBlocks,
      Except.map, List.length_flatMap, Function.comp_def]

/-- C4: for *every* injected alphabeticity predicate and frequency function —
in particular any with `freq "Hello" ≥ 3` and `freq "xqzplok" < 3` — the
chunk builder on the one-block page with spans `"Hello"`, `"xqzplok"` at
blocks granularity returns exactly one chunk whose text is the uncleaned
`"Hello xqzplok"`, not the claimed `"Hello"`: the settings (and hence the
frequency oracle) are never consulted. -/
theorem C4_settings_never_reach_cleaning (alpha : Char → Bool)
    (freq : Str → ℚ) :
    page_data_to_text_chunks alpha freq [pageHello] "blocks" =
      .ok [{ page_number := 1,
             text := ['H','e','l','l','o',' ','x','q','z','p','l','o','k'],
             px_left := 0, px_bottom := 0, width := 1, height := 10 }] ∧
    (['H','e','l','l','o',' ','x','q','z','p','l','o','k'] : Str) ≠
      ['H','e','l','l','o'] := by
  refine ⟨?_, by decide⟩
  simp [page_data_to_text_chunks, TextChunk.from_block_data, pageHello, spanH,
    box0, BoundingBox.px_left, BoundingBox.px_bottom, BoundingBox.width,
    BoundingBox.height, joinSpace]

/-- C8 counterexample: called with the granularity string `"words"`, which is
outside `{"spans", "lines", "blocks"}`, `page_data_to_text_chunks` does not
fail — it returns the successful result `.ok []` (no `InvalidGranularityError`
exists anywhere in the source). -/
theorem C8_counterexample :
    page_data_to_text_chunks alpha0 freq0 [pageHello] badGranularity =
      .ok [] ∧
    (page_data_to_text_chunks alpha0 freq0 [pageHello] badGranularity).isOk =
      true := by
  constructor <;>
    simp [page_data_to_text_chunks, badGranularity, Except.isOk, Except.toBool]

/-- C8 (amended): for every page list and every granularity value outside
`{"spans", "lines", "blocks"}`, `page_data_to_text_chunks` raises nothing and
returns the empty chunk sequence. -/
theorem C8_unknown_granularity_returns_empty (alpha : Char → Bool)
    (freq : Str → ℚ) (pages : List PageData) (g : String)
    (h1 : g ≠ "spans") (h2 : g ≠ "lines") (h3 : g ≠ "blocks") :
    page_data_to_text_chunks alpha freq pages g = .ok [] := by
  simp [page_data_to_text_chunks, h1, h2, h3]

/-- Witness for C8's amended theorem at the concrete granularity `"words"`. -/
theorem C8_witness :
    page_data_to_text_chunks alpha0 freq0 [pageHello] badGranularity =
      .ok [] :=
  C8_unknown_granularity_returns_empty alpha0 freq0 [pageHello] badGranularity
    (by decide) (by decide) (by decide)

/-- C3 counterexample: two `extract_pdf` calls with the same url (trivially
within any expiry window) invoke the upstream computation twice, not the
claimed exactly once: starting from an empty upstream log, the log after the
two calls holds two entries. -/
theorem C3_counterexample :
    ((extract_pdf fetch0 urlA (extract_pdf fetch0 urlA []).2).2).length = 2 ∧
    (extract_pdf fetch0 urlA (extract_pdf fetch0 urlA []).2).2 =
      [urlA, urlA] ∧
    (2 : ℕ) ≠ 1 := by
  refine ⟨rfl, rfl, by decide⟩

/-- C3 (amended): `extract_pdf` is not memoized — there is no cache, no
expiry and no eviction: every call returns `fetch url` afresh (its result
never depends on previous upstream interactions) and appends exactly one
upstream invocation to the log, so two calls with the same key perform two
upstream invocations. -/
theorem C3_extract_pdf_not_memoized (fetch : String → List PageData)
    (url : String) (log log' : List String) :
    (extract_pdf fetch url log).1 = fetch url ∧
    (extract_pdf fetch url log).1 = (extract_pdf fetch url log').1 ∧
    (extract_pdf fetch url log).2.length = log.length + 1 ∧
    ((extract_pdf fetch url (extract_pdf fetch url log).2).2).length =
      log.length + 2 := by
  refine ⟨rfl, rfl, ?_, ?_⟩ <;> simp [extract_pdf]

end PdfExtractor
